import Mathlib

/-!
# Verification of the MARS_UI serial frame protocol and data pipeline

Shallow embedding of the core of the MARS_UI repository:

* the binary serial frame parser inside `serial_communication_thread`
  (`pages/usb_ui.py`), which scans a byte buffer for the `AA BB` header,
  checks a 16-bit sum checksum and unpacks 14 little-endian `uint32`
  joint values;
* the per-frame state updates (latest angles, EMA communication
  statistics, gated recording buffer) of the same thread;
* the CSV export of the recorded-encoders buffer (`handle_all_buttons`);
* the bounded-queue stream worker `GRPCStreamHandler`
  (`grpc_stream_handler.py`);
* the `BackgroundWorker` task/result pipeline and the gain clamping of
  `apply_gains_threaded` (`pages/wifi_ui_1.py`) together with the client
  side clamp in `GRPC/stubs/client.py`.

Byte buffers are `List Nat` (each element a byte value), Python floats
are modelled as `ℚ`, and Python exceptions as `Except String`.
-/

namespace MarsUI

/-! ## Frame protocol constants (`pages/usb_ui.py`, module header)

`NUM_JOINTS = 7`, `ENC_DATA_SIZE = NUM_JOINTS * 2 * 4`,
`FRAME_SIZE = 2 + 1 + ENC_DATA_SIZE + 2`. -/

def NUM_JOINTS : Nat := 7

def ENC_DATA_SIZE : Nat := NUM_JOINTS * 2 * 4

def FRAME_SIZE : Nat := 2 + 1 + ENC_DATA_SIZE + 2

/-- Little-endian value of a byte list: `int.from_bytes(bs, 'little')`. -/
def leBytes : List Nat → Nat
  | [] => 0
  | a :: r => a + 256 * leBytes r

/-- First index of the 2-byte header `AA BB` in a buffer:
`buf.find(b'\xAA\xBB')`, `none` for Python's `-1`. -/
def findHdr : List Nat → Option Nat
  | [] => none
  | [_] => none
  | a :: b :: rest =>
      if a = 0xAA ∧ b = 0xBB then some 0
      else (findHdr (b :: rest)).map (· + 1)

/-- `struct.unpack('<14I', enc)` on the 56 encoder bytes: the `j`-th value
is the little-endian `uint32` at offset `4*j`. -/
def unpack14 (enc : List Nat) : List Nat :=
  (List.range 14).map (fun j => leBytes ((enc.drop (4 * j)).take 4))

/-- A decoded frame as built inside `serial_communication_thread`:
`sw = frame[2]`, `left_arm = values[:7]`, `right_arm = values[7:]`. -/
structure EncoderFrame where
  switch : Nat
  left_arm : List Nat
  right_arm : List Nat
deriving DecidableEq

/-- Checksum received with a 61-byte window:
`crc_rx = int.from_bytes(frame[-2:], 'little')`. -/
def crcRx (frame : List Nat) : Nat :=
  leBytes (frame.drop (FRAME_SIZE - 2))

/-- Checksum computed over a 61-byte window:
`crc_calc = sum(frame[2:2+1+ENC_DATA_SIZE]) & 0xFFFF`. -/
def crcCalc (frame : List Nat) : Nat :=
  ((frame.drop 2).take (1 + ENC_DATA_SIZE)).sum % 65536

/-- Decode one 61-byte window exactly as the body of the binary-frame
loop in `serial_communication_thread` does: compare `crc_rx` with
`crc_calc`; on a match unpack `enc = frame[3:3+ENC_DATA_SIZE]` into 14
`uint32` values and split 7/7 into left and right arm. -/
def decodeWindow (frame : List Nat) : Option EncoderFrame :=
  if crcRx frame = crcCalc frame then
    let values := unpack14 ((frame.drop 3).take ENC_DATA_SIZE)
    some ⟨frame.getD 2 0, values.take 7, values.drop 7⟩
  else
    none

/-- One execution of the `while True` binary-frame loop of
`serial_communication_thread`, with explicit fuel (each iteration
consumes at least `FRAME_SIZE` bytes, so `buf.length` steps suffice;
see `procFramesAux_fuel_irrelevant`):

* `i = buf.find(FRAME_HDR)`; if absent, stop;
* if `len(buf) - i < FRAME_LEN`, stop (incomplete frame);
* `frame = bytes(buf[i:i+FRAME_LEN])`; `del buf[:i+FRAME_LEN]`
  — note the whole window is consumed *before* the checksum check;
* on checksum match the frame is emitted, otherwise discarded (`continue`).

Returns the emitted frames in order and the residual buffer. -/
def procFramesAux : Nat → List Nat → List EncoderFrame × List Nat
  | 0, buf => ([], buf)
  | fuel + 1, buf =>
      match findHdr buf with
      | none => ([], buf)
      | some i =>
          if buf.length - i < FRAME_SIZE then ([], buf)
          else
            let window := (buf.drop i).take FRAME_SIZE
            let rest := buf.drop (i + FRAME_SIZE)
            let tail := procFramesAux fuel rest
            match decodeWindow window with
            | some f => (f :: tail.1, tail.2)
            | none => tail

/-- The binary-frame pass over one accumulated buffer. -/
def procFrames (buf : List Nat) : List EncoderFrame × List Nat :=
  procFramesAux buf.length buf

/-- Sum-checksum acceptance condition of a 61-byte window, written the
way the spec states it: `sum(b[2:59]) mod 65536 == LE16(b[59:61])`. -/
def checksumOk (b : List Nat) : Prop :=
  ((b.drop 2).take 57).sum % 65536 = b.getD 59 0 + 256 * b.getD 60 0

instance (b : List Nat) : Decidable (checksumOk b) := by
  unfold checksumOk; infer_instance

/-- The valid all-zero frame of spec scenario A:
`AA BB 01`, 56 zero bytes, checksum `01 00`. -/
def scenarioAFrame : List Nat :=
  [0xAA, 0xBB, 0x01] ++ List.replicate 56 0 ++ [0x01, 0x00]

/-- Spec scenario B input: a bare `AA BB` immediately followed by the
complete valid frame `scenarioAFrame`. -/
def scenarioBInput : List Nat :=
  [0xAA, 0xBB] ++ scenarioAFrame

example : decodeWindow scenarioAFrame =
    some ⟨1, List.replicate 7 0, List.replicate 7 0⟩ := by decide

example : procFrames scenarioAFrame =
    ([⟨1, List.replicate 7 0, List.replicate 7 0⟩], []) := by decide

example : procFrames scenarioBInput = ([], [0x01, 0x00]) := by decide

/-! ## Generic lemmas about the binary-frame loop -/

lemma procFramesAux_fuel_irrelevant :
    ∀ f g buf, buf.length ≤ f → buf.length ≤ g →
      procFramesAux f buf = procFramesAux g buf := by
  intro f
  induction f with
  | zero =>
      intro g buf hf _
      have hb : buf = [] := List.eq_nil_of_length_eq_zero (Nat.le_zero.mp hf)
      subst hb
      cases g <;> simp [procFramesAux, findHdr]
  | succ f ih =>
      intro g buf hf hg
      cases g with
      | zero =>
          have hb : buf = [] := List.eq_nil_of_length_eq_zero (Nat.le_zero.mp hg)
          subst hb
          simp [procFramesAux, findHdr]
      | succ g' =>
          rcases hh : findHdr buf with _ | i
          · simp [procFramesAux, hh]
          · by_cases hlt : buf.length - i < FRAME_SIZE
            · simp [procFramesAux, hh, hlt]
            · have hFS : FRAME_SIZE = 61 := rfl
              have hrest : (buf.drop (i + FRAME_SIZE)).length ≤ f := by
                rw [List.length_drop]; omega
              have hrest' : (buf.drop (i + FRAME_SIZE)).length ≤ g' := by
                rw [List.length_drop]; omega
              simp only [procFramesAux, hh]
              rw [if_neg hlt, if_neg hlt, ih g' _ hrest hrest']

/-- Unfolding of `procFrames` when a complete window follows the first
header match: the window is consumed and, depending on the checksum,
the decoded frame is emitted or silently dropped. -/
lemma procFrames_step (buf : List Nat) (i : Nat)
    (hf : findHdr buf = some i) (hlen : FRAME_SIZE ≤ buf.length - i) :
    procFrames buf =
      match decodeWindow ((buf.drop i).take FRAME_SIZE) with
      | some f => (f :: (procFrames (buf.drop (i + FRAME_SIZE))).1,
                   (procFrames (buf.drop (i + FRAME_SIZE))).2)
      | none => procFrames (buf.drop (i + FRAME_SIZE)) := by
  have hFS : FRAME_SIZE = 61 := rfl
  have hpos : 1 ≤ buf.length := by omega
  have hbuf : buf.length = (buf.length - 1) + 1 := by omega
  have hrest : (buf.drop (i + FRAME_SIZE)).length ≤ buf.length - 1 := by
    rw [List.length_drop]; omega
  unfold procFrames
  rw [hbuf]
  simp only [procFramesAux, hf, Nat.not_lt.mpr hlen, if_false]
  rw [procFramesAux_fuel_irrelevant (buf.length - 1) (buf.drop (i + FRAME_SIZE)).length
    (buf.drop (i + FRAME_SIZE)) hrest (le_refl _)]

lemma findHdr_of_head (l : List Nat) (h2 : 2 ≤ l.length)
    (h0 : l.getD 0 0 = 0xAA) (h1 : l.getD 1 0 = 0xBB) :
    findHdr l = some 0 := by
  match l, h2 with
  | a :: b :: rest, _ =>
      simp only [List.getD_cons_zero] at h0
      simp only [List.getD_cons_succ, List.getD_cons_zero] at h1
      simp [findHdr, h0, h1]

lemma drop59_eq (b : List Nat) (h : b.length = 61) :
    b.drop 59 = [b.getD 59 0, b.getD 60 0] := by
  have h59 : (59 : Nat) < b.length := by omega
  have h60 : (60 : Nat) < b.length := by omega
  rw [List.drop_eq_getElem_cons h59, List.drop_eq_getElem_cons h60,
    List.drop_eq_nil_of_le (by omega),
    List.getD_eq_getElem b 0 h59, List.getD_eq_getElem b 0 h60]

lemma crcRx_eq (b : List Nat) (h : b.length = 61) :
    crcRx b = b.getD 59 0 + 256 * b.getD 60 0 := by
  have : FRAME_SIZE - 2 = 59 := rfl
  rw [crcRx, this, drop59_eq b h]
  simp [leBytes]

lemma decodeWindow_none_iff (b : List Nat) (h : b.length = 61) :
    decodeWindow b = none ↔ ¬ checksumOk b := by
  by_cases hck : checksumOk b
  · have hcrc : crcRx b = crcCalc b := by
      rw [crcRx_eq b h]; exact hck.symm
    rw [decodeWindow, if_pos hcrc]
    simp [hck]
  · have hne : ¬ crcRx b = crcCalc b :=
      fun hh => hck (hh.symm.trans (crcRx_eq b h))
    rw [decodeWindow, if_neg hne]
    simp [hck]

lemma unpack14_slice (b : List Nat) :
    unpack14 ((b.drop 3).take ENC_DATA_SIZE) =
      (List.range 14).map (fun j => leBytes ((b.drop (3 + 4 * j)).take 4)) := by
  unfold unpack14
  apply List.map_congr_left
  intro j hj
  have hj14 : j < 14 := List.mem_range.mp hj
  have hE : ENC_DATA_SIZE = 56 := rfl
  rw [hE, List.drop_take, List.take_take, List.drop_drop]
  have h4 : min 4 (56 - 4 * j) = 4 := by omega
  rw [h4]

/-- Content of claim C2 as a reusable lemma: a 61-byte buffer starting
with the header is accepted iff the sum checksum matches, and on
acceptance exactly one frame is emitted with `switch = b[2]` and the 14
little-endian `uint32` values taken from `b[3:59]`. -/
lemma procFrames_single (b : List Nat) (hlen : b.length = 61)
    (h0 : b.getD 0 0 = 0xAA) (h1 : b.getD 1 0 = 0xBB) :
    ((procFrames b).1 ≠ [] ↔ checksumOk b) ∧
    (checksumOk b →
      procFrames b =
        ([⟨b.getD 2 0,
           ((List.range 14).map (fun j => leBytes ((b.drop (3 + 4 * j)).take 4))).take 7,
           ((List.range 14).map (fun j => leBytes ((b.drop (3 + 4 * j)).take 4))).drop 7⟩],
         [])) := by
  have hf : findHdr b = some 0 := findHdr_of_head b (by omega) h0 h1
  have hcomplete : FRAME_SIZE ≤ b.length - 0 := by
    have hFS : FRAME_SIZE = 61 := rfl
    omega
  have hwin : (b.drop 0).take FRAME_SIZE = b := by
    rw [List.drop_zero]
    exact List.take_of_length_le (by rw [hlen]; decide)
  have hrest : b.drop (0 + FRAME_SIZE) = [] :=
    List.drop_eq_nil_of_le (by rw [hlen]; decide)
  have hstep := procFrames_step b 0 hf hcomplete
  rw [hwin, hrest] at hstep
  have hempty : procFrames ([] : List Nat) = ([], []) := rfl
  rw [hempty] at hstep
  by_cases hck : checksumOk b
  · have hcrc : crcRx b = crcCalc b := by
      rw [crcRx_eq b hlen]; exact hck.symm
    have hdec : decodeWindow b =
        some ⟨b.getD 2 0,
          (unpack14 ((b.drop 3).take ENC_DATA_SIZE)).take 7,
          (unpack14 ((b.drop 3).take ENC_DATA_SIZE)).drop 7⟩ := by
      rw [decodeWindow, if_pos hcrc]
    rw [hdec] at hstep
    refine ⟨⟨fun _ => hck, fun _ => ?_⟩, fun _ => ?_⟩
    · rw [hstep]; simp
    · rw [hstep, unpack14_slice b]
  · have hdec : decodeWindow b = none := (decodeWindow_none_iff b hlen).mpr hck
    rw [hdec] at hstep
    refine ⟨⟨fun hne => ?_, fun hc => absurd hc hck⟩, fun hc => absurd hc hck⟩
    exact absurd (by rw [hstep]) hne

/-- Content of the amended claim C1 as a reusable lemma: when the
window at the first header match fails the checksum, the parser
consumes the whole `FRAME_SIZE`-byte window, not just the header. -/
lemma procFrames_skip_window (buf : List Nat) (i : Nat)
    (hf : findHdr buf = some i) (hlen : FRAME_SIZE ≤ buf.length - i)
    (hbad : decodeWindow ((buf.drop i).take FRAME_SIZE) = none) :
    procFrames buf = procFrames (buf.drop (i + FRAME_SIZE)) := by
  rw [procFrames_step buf i hf hlen, hbad]

/-- A 61-byte frame with a valid header and an invalid checksum:
`AA BB 02`, 56 zero bytes, then the (wrong) checksum bytes `01 00`
(the byte sum is 2, not 1). -/
def corruptedFrame : List Nat :=
  [0xAA, 0xBB, 0x02] ++ List.replicate 56 0 ++ [0x01, 0x00]

/-! ## Claim theorems C1 – C3 -/

/-- C1, counterexample: the claim says that on a checksum mismatch the
parser discards only the two matched header bytes, so that the input
`AA BB` followed by the complete valid frame `scenarioAFrame` would
still emit that frame. In fact the trailing 61 bytes decode to a valid
frame, yet the parser emits nothing on `scenarioBInput` and leaves only
the last two bytes `01 00` in the buffer: the whole 61-byte window
starting at the first `AA BB` was consumed. -/
theorem header_only_discard_counterexample :
    decodeWindow scenarioAFrame =
        some ⟨1, List.replicate 7 0, List.replicate 7 0⟩ ∧
      procFrames scenarioBInput = ([], [0x01, 0x00]) := by
  decide

/-- C1 (amended): whenever the first header match is followed by a
complete 61-byte window whose checksum check fails, the frame parser of
`serial_communication_thread` discards the entire window — the header
bytes plus the remaining 59 bytes — and resumes scanning only after it. -/
theorem mismatch_discards_whole_window (buf : List Nat) (i : Nat)
    (hf : findHdr buf = some i) (hlen : FRAME_SIZE ≤ buf.length - i)
    (hbad : decodeWindow ((buf.drop i).take FRAME_SIZE) = none) :
    procFrames buf = procFrames (buf.drop (i + FRAME_SIZE)) :=
  procFrames_skip_window buf i hf hlen hbad

/-- Witness for `mismatch_discards_whole_window` at scenario B. -/
theorem mismatch_discards_whole_window_witness :
    procFrames scenarioBInput = procFrames (scenarioBInput.drop (0 + FRAME_SIZE)) :=
  mismatch_discards_whole_window scenarioBInput 0 (by decide) (by decide) (by decide)

/-- C2: a 61-byte buffer `b` starting with `AA BB` is accepted and emits
a frame iff `sum(b[2:59]) mod 65536` equals the little-endian `uint16`
`b[59] + 256*b[60]`; on acceptance the emitted switch byte is `b[2]` and
the 14 `uint32` values are the little-endian integers of `b[3+4j:7+4j]`. -/
theorem frame_checksum_law (b : List Nat) (hlen : b.length = 61)
    (h0 : b.getD 0 0 = 0xAA) (h1 : b.getD 1 0 = 0xBB) :
    ((procFrames b).1 ≠ [] ↔ checksumOk b) ∧
    (checksumOk b →
      procFrames b =
        ([⟨b.getD 2 0,
           ((List.range 14).map (fun j => leBytes ((b.drop (3 + 4 * j)).take 4))).take 7,
           ((List.range 14).map (fun j => leBytes ((b.drop (3 + 4 * j)).take 4))).drop 7⟩],
         [])) :=
  procFrames_single b hlen h0 h1

/-- Witness for `frame_checksum_law` at the valid scenario-A frame. -/
theorem frame_checksum_law_witness :
    ((procFrames scenarioAFrame).1 ≠ [] ↔ checksumOk scenarioAFrame) ∧
    (checksumOk scenarioAFrame →
      procFrames scenarioAFrame =
        ([⟨scenarioAFrame.getD 2 0,
           ((List.range 14).map
             (fun j => leBytes ((scenarioAFrame.drop (3 + 4 * j)).take 4))).take 7,
           ((List.range 14).map
             (fun j => leBytes ((scenarioAFrame.drop (3 + 4 * j)).take 4))).drop 7⟩],
         [])) :=
  frame_checksum_law scenarioAFrame (by decide) (by decide) (by decide)

/-- C3: a complete corrupted frame (valid header, failing checksum)
immediately followed by a complete valid frame does not desynchronize
the parser: the stream is parsed exactly like the valid frame alone,
which emits it. -/
theorem resync_after_corrupted_frame (c v : List Nat)
    (hc : c.length = 61) (hc0 : c.getD 0 0 = 0xAA) (hc1 : c.getD 1 0 = 0xBB)
    (hbad : ¬ checksumOk c)
    (hv : v.length = 61) (hv0 : v.getD 0 0 = 0xAA) (hv1 : v.getD 1 0 = 0xBB)
    (hgood : checksumOk v) :
    procFrames (c ++ v) = procFrames v ∧ (procFrames v).1 ≠ [] := by
  have h0 : (c ++ v).getD 0 0 = 0xAA := by
    rw [List.getD_append c v 0 0 (by omega)]; exact hc0
  have h1 : (c ++ v).getD 1 0 = 0xBB := by
    rw [List.getD_append c v 0 1 (by omega)]; exact hc1
  have hf : findHdr (c ++ v) = some 0 := by
    apply findHdr_of_head _ _ h0 h1
    rw [List.length_append]; omega
  have hlen : FRAME_SIZE ≤ (c ++ v).length - 0 := by
    rw [List.length_append, hc, hv]; decide
  have hclen : FRAME_SIZE = c.length := by rw [hc]; rfl
  have hwin : ((c ++ v).drop 0).take FRAME_SIZE = c := by
    rw [List.drop_zero, hclen, List.take_left]
  have hdropped : (c ++ v).drop (0 + FRAME_SIZE) = v := by
    rw [Nat.zero_add, hclen, List.drop_left]
  have hskip := procFrames_skip_window (c ++ v) 0 hf hlen
    (by rw [hwin]; exact (decodeWindow_none_iff c hc).mpr hbad)
  rw [hdropped] at hskip
  exact ⟨hskip, (procFrames_single v hv hv0 hv1).1.mpr hgood⟩

/-- Witness for `resync_after_corrupted_frame` at a concrete corrupted
frame followed by the valid scenario-A frame. -/
theorem resync_after_corrupted_frame_witness :
    procFrames (corruptedFrame ++ scenarioAFrame) = procFrames scenarioAFrame ∧
      (procFrames scenarioAFrame).1 ≠ [] :=
  resync_after_corrupted_frame corruptedFrame scenarioAFrame
    (by decide) (by decide) (by decide) (by decide)
    (by decide) (by decide) (by decide) (by decide)

/-! ## Per-frame state updates of `serial_communication_thread`

For every successfully decoded frame the thread updates
`latest_enc_L`/`latest_enc_R` and the communication statistics
unconditionally, and appends to `recorded_encoders` only while
`recording_active` is true.  The `save-btn` branch of
`handle_all_buttons` sets `recording_active` to `True`/`False` and
touches nothing else of this state. -/

/-- One entry of `recorded_encoders`:
`{'timestamp': ts, 'left_arm': left_arm, 'right_arm': right_arm}`. -/
structure RecordedSample where
  timestamp : ℚ
  left_arm : List Nat
  right_arm : List Nat
deriving DecidableEq

/-- The `stats` dict: `last_ts`, `ema_interval_ms` (may be `None`), `fps`. -/
structure CommStats where
  last_ts : ℚ
  ema_interval_ms : Option ℚ
  fps : ℚ
deriving DecidableEq

/-- The statistics update performed for every decoded frame:
EMA of the inter-frame interval with `alpha = 0.2` and derived FPS. -/
def updateStats (s : CommStats) (ts : ℚ) : CommStats :=
  if s.last_ts ≠ 0 then
    let dt := (ts - s.last_ts) * 1000
    let ema := match s.ema_interval_ms with
      | none => dt
      | some e => (1 - 1/5) * e + (1/5) * dt
    { last_ts := ts,
      ema_interval_ms := some ema,
      fps := if ema > 0 then 1000 / ema else s.fps }
  else
    { s with last_ts := ts }

/-- The module-level mutable state touched per decoded frame. -/
structure UsbState where
  latest_enc_L : List Nat
  latest_enc_R : List Nat
  recorded_encoders : List RecordedSample
  recording_active : Bool
  stats : CommStats
deriving DecidableEq

/-- Effect of one successfully decoded frame: latest angles and stats
always refreshed, the sample appended only when `recording_active`. -/
def onDecodedFrame (st : UsbState) (ts : ℚ) (f : EncoderFrame) : UsbState :=
  { latest_enc_L := f.left_arm,
    latest_enc_R := f.right_arm,
    recorded_encoders :=
      if st.recording_active then
        st.recorded_encoders ++ [⟨ts, f.left_arm, f.right_arm⟩]
      else st.recorded_encoders,
    recording_active := st.recording_active,
    stats := updateStats st.stats ts }

/-- Events affecting this state: a decoded frame, or the Recording
button toggling `recording_active`. -/
inductive UsbEvent
  | decoded (ts : ℚ) (f : EncoderFrame)
  | setRecording (b : Bool)

def usbStep (st : UsbState) : UsbEvent → UsbState
  | .decoded ts f => onDecodedFrame st ts f
  | .setRecording b => { st with recording_active := b }

def runUsb (st : UsbState) (evs : List UsbEvent) : UsbState :=
  evs.foldl usbStep st

/-- C4: every decoded frame refreshes the latest angles and statistics
unconditionally; a sample is appended to `recorded_encoders` iff
`recording_active` is true at that instant; toggling the flag leaves
the buffer untouched; and the F1 (active), F2 (inactive), F3 (active)
sequence leaves exactly F1 and F3 in the buffer. -/
theorem recording_gating (st : UsbState) (ts : ℚ) (f : EncoderFrame) (b : Bool)
    (f1 f2 f3 : EncoderFrame) (t1 t2 t3 : ℚ)
    (hact : st.recording_active = true) :
    ((onDecodedFrame st ts f).latest_enc_L = f.left_arm ∧
     (onDecodedFrame st ts f).latest_enc_R = f.right_arm ∧
     (onDecodedFrame st ts f).stats = updateStats st.stats ts) ∧
    ((onDecodedFrame st ts f).recorded_encoders =
      if st.recording_active then
        st.recorded_encoders ++ [⟨ts, f.left_arm, f.right_arm⟩]
      else st.recorded_encoders) ∧
    (usbStep st (.setRecording b)).recorded_encoders = st.recorded_encoders ∧
    (runUsb st [.decoded t1 f1, .setRecording false, .decoded t2 f2,
                .setRecording true, .decoded t3 f3]).recorded_encoders =
      st.recorded_encoders ++
        [⟨t1, f1.left_arm, f1.right_arm⟩, ⟨t3, f3.left_arm, f3.right_arm⟩] := by
  refine ⟨⟨rfl, rfl, rfl⟩, rfl, rfl, ?_⟩
  simp [runUsb, usbStep, onDecodedFrame, hact]

/-- Witness for `recording_gating` at a concrete initial state and
three concrete frames. -/
theorem recording_gating_witness :
    (((onDecodedFrame ⟨List.replicate 7 0, List.replicate 7 0, [], true, ⟨0, none, 0⟩⟩
        1 ⟨1, List.replicate 7 5, List.replicate 7 6⟩).latest_enc_L =
          List.replicate 7 5 ∧
      (onDecodedFrame ⟨List.replicate 7 0, List.replicate 7 0, [], true, ⟨0, none, 0⟩⟩
        1 ⟨1, List.replicate 7 5, List.replicate 7 6⟩).latest_enc_R =
          List.replicate 7 6 ∧
      (onDecodedFrame ⟨List.replicate 7 0, List.replicate 7 0, [], true, ⟨0, none, 0⟩⟩
        1 ⟨1, List.replicate 7 5, List.replicate 7 6⟩).stats =
          updateStats (⟨0, none, 0⟩ : CommStats) 1) ∧
     ((onDecodedFrame ⟨List.replicate 7 0, List.replicate 7 0, [], true, ⟨0, none, 0⟩⟩
        1 ⟨1, List.replicate 7 5, List.replicate 7 6⟩).recorded_encoders =
      if (⟨List.replicate 7 0, List.replicate 7 0, [], true, ⟨0, none, 0⟩⟩ :
            UsbState).recording_active then
        [] ++ [⟨1, List.replicate 7 5, List.replicate 7 6⟩]
      else []) ∧
     (usbStep ⟨List.replicate 7 0, List.replicate 7 0, [], true, ⟨0, none, 0⟩⟩
        (.setRecording false)).recorded_encoders = [] ∧
     (runUsb ⟨List.replicate 7 0, List.replicate 7 0, [], true, ⟨0, none, 0⟩⟩
        [.decoded 1 ⟨1, List.replicate 7 1, List.replicate 7 1⟩,
         .setRecording false,
         .decoded 2 ⟨2, List.replicate 7 2, List.replicate 7 2⟩,
         .setRecording true,
         .decoded 3 ⟨3, List.replicate 7 3, List.replicate 7 3⟩]).recorded_encoders =
      [] ++ [⟨1, List.replicate 7 1, List.replicate 7 1⟩,
             ⟨3, List.replicate 7 3, List.replicate 7 3⟩]) :=
  recording_gating ⟨List.replicate 7 0, List.replicate 7 0, [], true, ⟨0, none, 0⟩⟩
    1 ⟨1, List.replicate 7 5, List.replicate 7 6⟩ false
    ⟨1, List.replicate 7 1, List.replicate 7 1⟩
    ⟨2, List.replicate 7 2, List.replicate 7 2⟩
    ⟨3, List.replicate 7 3, List.replicate 7 3⟩
    1 2 3 rfl

/-! ## CSV export (`handle_all_buttons`, `save-as-btn` branch)

The branch writes a header row from `fieldnames` and one `DictWriter`
row per entry of `recorded_encoders`; it only reads the buffer, never
clears it.  A cell is either a header string, the raw float timestamp,
the `strftime`-rendered datetime of that timestamp (modelled by the
constructor `datetimeOf`, a function of the timestamp only), or an
integer joint value. -/

inductive CsvCell
  | str (s : String)
  | num (q : ℚ)
  | datetimeOf (ts : ℚ)
  | val (n : Nat)
deriving DecidableEq

/-- `fieldnames = ['timestamp', 'datetime'] + right_joint_1..7 + left_joint_1..7`. -/
def csvFieldnames : List String :=
  ["timestamp", "datetime"]
    ++ (List.range NUM_JOINTS).map (fun i => "right_joint_" ++ toString (i + 1))
    ++ (List.range NUM_JOINTS).map (fun i => "left_joint_" ++ toString (i + 1))

/-- One data row: timestamp, datetime, then
`row[f'right_joint_{i+1}'] = entry['right_arm'][i]` and afterwards the
left-arm values, serialized by `DictWriter` in `fieldnames` order. -/
def csvRow (e : RecordedSample) : List CsvCell :=
  [CsvCell.num e.timestamp, CsvCell.datetimeOf e.timestamp]
    ++ (List.range NUM_JOINTS).map (fun i => CsvCell.val (e.right_arm.getD i 0))
    ++ (List.range NUM_JOINTS).map (fun i => CsvCell.val (e.left_arm.getD i 0))

/-- The `save-as-btn` branch: `if not recorded_encoders:` no file is
written; otherwise header plus one row per entry. -/
def saveAsCsv (recorded : List RecordedSample) :
    Option (List String × List (List CsvCell)) :=
  if recorded = [] then none
  else some (csvFieldnames, recorded.map csvRow)

/-- The whole branch leaves the shared state untouched (it only reads
`recorded_encoders` under the lock) and produces the file contents. -/
def handleSaveAs (st : UsbState) :
    UsbState × Option (List String × List (List CsvCell)) :=
  (st, saveAsCsv st.recorded_encoders)

/-- C9: exporting a non-empty buffer of N samples yields the header row
in the fixed column order followed by exactly N data rows, where the
`right_joint_i` column of a row holds `right_arm[i-1]` and the
`left_joint_i` column holds `left_arm[i-1]`; the buffer is not cleared. -/
theorem csv_export_contract (st : UsbState)
    (hne : st.recorded_encoders ≠ []) :
    (handleSaveAs st).1 = st ∧
    (handleSaveAs st).2 = some (csvFieldnames, st.recorded_encoders.map csvRow) ∧
    (st.recorded_encoders.map csvRow).length = st.recorded_encoders.length ∧
    csvFieldnames = ["timestamp", "datetime",
      "right_joint_1", "right_joint_2", "right_joint_3", "right_joint_4",
      "right_joint_5", "right_joint_6", "right_joint_7",
      "left_joint_1", "left_joint_2", "left_joint_3", "left_joint_4",
      "left_joint_5", "left_joint_6", "left_joint_7"] ∧
    (∀ e : RecordedSample, ∀ i : Nat, 1 ≤ i → i ≤ NUM_JOINTS →
      (csvRow e).getD (1 + i) (CsvCell.str "") =
          CsvCell.val (e.right_arm.getD (i - 1) 0) ∧
        (csvRow e).getD (1 + NUM_JOINTS + i) (CsvCell.str "") =
          CsvCell.val (e.left_arm.getD (i - 1) 0)) := by
  refine ⟨rfl, ?_, List.length_map _ _, by decide, ?_⟩
  · rw [handleSaveAs, saveAsCsv, if_neg hne]
  · intro e i h1 h7
    have h7' : i ≤ 7 := h7
    interval_cases i <;> exact ⟨rfl, rfl⟩

/-- Witness for `csv_export_contract` on a one-sample buffer. -/
theorem csv_export_contract_witness :
    (handleSaveAs ⟨[], [], [⟨1, List.replicate 7 4, List.replicate 7 9⟩],
        false, ⟨0, none, 0⟩⟩).1 =
      ⟨[], [], [⟨1, List.replicate 7 4, List.replicate 7 9⟩], false, ⟨0, none, 0⟩⟩ ∧
    (handleSaveAs ⟨[], [], [⟨1, List.replicate 7 4, List.replicate 7 9⟩],
        false, ⟨0, none, 0⟩⟩).2 =
      some (csvFieldnames, [⟨1, List.replicate 7 4, List.replicate 7 9⟩].map csvRow) ∧
    ([(⟨1, List.replicate 7 4, List.replicate 7 9⟩ : RecordedSample)].map csvRow).length =
      [(⟨1, List.replicate 7 4, List.replicate 7 9⟩ : RecordedSample)].length ∧
    csvFieldnames = ["timestamp", "datetime",
      "right_joint_1", "right_joint_2", "right_joint_3", "right_joint_4",
      "right_joint_5", "right_joint_6", "right_joint_7",
      "left_joint_1", "left_joint_2", "left_joint_3", "left_joint_4",
      "left_joint_5", "left_joint_6", "left_joint_7"] ∧
    (∀ e : RecordedSample, ∀ i : Nat, 1 ≤ i → i ≤ NUM_JOINTS →
      (csvRow e).getD (1 + i) (CsvCell.str "") =
          CsvCell.val (e.right_arm.getD (i - 1) 0) ∧
        (csvRow e).getD (1 + NUM_JOINTS + i) (CsvCell.str "") =
          CsvCell.val (e.left_arm.getD (i - 1) 0)) :=
  csv_export_contract
    ⟨[], [], [⟨1, List.replicate 7 4, List.replicate 7 9⟩], false, ⟨0, none, 0⟩⟩
    (by decide)

/-! ## `GRPCStreamHandler` (`grpc_stream_handler.py`)

A bounded FIFO queue (`queue.Queue(maxsize=max_queue_size)`, default
1000) fed by `add_sample` and drained by `_worker_loop`, which calls
every registered callback on each sample and swallows callback
exceptions.  Python floats are `ℚ`, `int(x)` is truncation toward
zero. -/

/-- Python `int()` applied to a float: truncation toward zero. -/
def pyInt (q : ℚ) : ℤ :=
  if 0 ≤ q then ⌊q⌋ else -⌊-q⌋

structure StreamSample where
  timestamp : ℚ
  angles : List ℚ
  sequence : Nat
  session_id : String
  capture_time_ns : ℤ
  send_time_ns : ℤ
deriving DecidableEq

/-- Sample construction inside `add_sample`:
`capture_time_ns or int(timestamp * 1_000_000_000)` — a zero (falsy)
argument is replaced by the timestamp-derived value; `angles[:]` is a
copy, which is the identity under value semantics. -/
def mkStreamSample (ts : ℚ) (angles : List ℚ) (sequence : Nat)
    (session_id : String) (capture_time_ns send_time_ns : ℤ) : StreamSample :=
  { timestamp := ts
    angles := angles
    sequence := sequence
    session_id := session_id
    capture_time_ns :=
      if capture_time_ns = 0 then pyInt (ts * 1000000000) else capture_time_ns
    send_time_ns :=
      if send_time_ns = 0 then pyInt (ts * 1000000000) else send_time_ns }

structure StreamStats where
  total_samples : Nat
  processed_samples : Nat
  dropped_samples : Nat
  last_fps : ℚ
deriving DecidableEq

structure GRPCStreamHandler where
  max_queue_size : Nat
  data_queue : List StreamSample
  is_running : Bool
  stats : StreamStats
deriving DecidableEq

/-- `add_sample`: returns `False` when not running; otherwise tries
`put_nowait` — `queue.Queue` raises `queue.Full` iff `maxsize > 0` and
the queue already holds `maxsize` items, in which case the except
branch increments `dropped_samples` and returns `False`; on success
`total_samples` is incremented and the sample is appended. -/
def add_sample (h : GRPCStreamHandler) (angles : List ℚ) (sequence : Nat)
    (session_id : String) (capture_time_ns send_time_ns : ℤ) (now : ℚ) :
    GRPCStreamHandler × Bool :=
  if h.is_running = false then (h, false)
  else
    let sample := mkStreamSample now angles sequence session_id
      capture_time_ns send_time_ns
    if h.max_queue_size = 0 ∨ h.data_queue.length < h.max_queue_size then
      ({ h with data_queue := h.data_queue ++ [sample],
                stats := { h.stats with
                  total_samples := h.stats.total_samples + 1 } }, true)
    else
      ({ h with stats := { h.stats with
                  dropped_samples := h.stats.dropped_samples + 1 } }, false)

/-- Arguments of one `add_sample` call, together with the wall-clock
time observed inside the call. -/
structure AddArgs where
  angles : List ℚ
  sequence : Nat
  session_id : String
  capture_time_ns : ℤ
  send_time_ns : ℤ
  now : ℚ
deriving DecidableEq

def sampleOfArgs (a : AddArgs) : StreamSample :=
  mkStreamSample a.now a.angles a.sequence a.session_id
    a.capture_time_ns a.send_time_ns

/-- A sequence of producer-side `add_sample` calls. -/
def submitAll (h : GRPCStreamHandler) : List AddArgs → GRPCStreamHandler
  | [] => h
  | a :: rest =>
      submitAll (add_sample h a.angles a.sequence a.session_id
        a.capture_time_ns a.send_time_ns a.now).1 rest

/-- C5: an `add_sample` call against a full queue of 1000 samples is a
pure drop — the queue and every other statistic are unchanged, the
dropped-samples counter increases by exactly one and the call returns
`False` (it neither blocks nor raises: the `queue.Full` exception is
caught inside `add_sample`). -/
theorem stream_drop_newest (h : GRPCStreamHandler) (angles : List ℚ)
    (sequence : Nat) (session_id : String)
    (capture_time_ns send_time_ns : ℤ) (now : ℚ)
    (hrun : h.is_running = true) (hmax : h.max_queue_size = 1000)
    (hfull : h.data_queue.length = 1000) :
    (add_sample h angles sequence session_id
        capture_time_ns send_time_ns now).1.data_queue = h.data_queue ∧
    (add_sample h angles sequence session_id
        capture_time_ns send_time_ns now).1.stats.dropped_samples =
      h.stats.dropped_samples + 1 ∧
    (add_sample h angles sequence session_id
        capture_time_ns send_time_ns now).1.stats.total_samples =
      h.stats.total_samples ∧
    (add_sample h angles sequence session_id
        capture_time_ns send_time_ns now).1.stats.processed_samples =
      h.stats.processed_samples ∧
    (add_sample h angles sequence session_id
        capture_time_ns send_time_ns now).1.stats.last_fps = h.stats.last_fps ∧
    (add_sample h angles sequence session_id
        capture_time_ns send_time_ns now).1.is_running = h.is_running ∧
    (add_sample h angles sequence session_id
        capture_time_ns send_time_ns now).1.max_queue_size = h.max_queue_size ∧
    (add_sample h angles sequence session_id
        capture_time_ns send_time_ns now).2 = false := by
  have hnot : ¬ (h.max_queue_size = 0 ∨ h.data_queue.length < h.max_queue_size) := by
    rw [hmax, hfull]; omega
  simp [add_sample, hrun, hnot]

/-- A concrete sample used by stream-handler witnesses. -/
def sampleW : StreamSample := ⟨1, [1, 2], 0, "", 5, 5⟩

/-- Witness for `stream_drop_newest` on a concretely full handler. -/
theorem stream_drop_newest_witness :
    (add_sample ⟨1000, List.replicate 1000 sampleW, true, ⟨1000, 900, 3, 0⟩⟩
        [3, 4] 7 "s" 0 0 2).1.data_queue = List.replicate 1000 sampleW ∧
    (add_sample ⟨1000, List.replicate 1000 sampleW, true, ⟨1000, 900, 3, 0⟩⟩
        [3, 4] 7 "s" 0 0 2).1.stats.dropped_samples = 3 + 1 ∧
    (add_sample ⟨1000, List.replicate 1000 sampleW, true, ⟨1000, 900, 3, 0⟩⟩
        [3, 4] 7 "s" 0 0 2).1.stats.total_samples = 1000 ∧
    (add_sample ⟨1000, List.replicate 1000 sampleW, true, ⟨1000, 900, 3, 0⟩⟩
        [3, 4] 7 "s" 0 0 2).1.stats.processed_samples = 900 ∧
    (add_sample ⟨1000, List.replicate 1000 sampleW, true, ⟨1000, 900, 3, 0⟩⟩
        [3, 4] 7 "s" 0 0 2).1.stats.last_fps = 0 ∧
    (add_sample ⟨1000, List.replicate 1000 sampleW, true, ⟨1000, 900, 3, 0⟩⟩
        [3, 4] 7 "s" 0 0 2).1.is_running = true ∧
    (add_sample ⟨1000, List.replicate 1000 sampleW, true, ⟨1000, 900, 3, 0⟩⟩
        [3, 4] 7 "s" 0 0 2).1.max_queue_size = 1000 ∧
    (add_sample ⟨1000, List.replicate 1000 sampleW, true, ⟨1000, 900, 3, 0⟩⟩
        [3, 4] 7 "s" 0 0 2).2 = false :=
  stream_drop_newest ⟨1000, List.replicate 1000 sampleW, true, ⟨1000, 900, 3, 0⟩⟩
    [3, 4] 7 "s" 0 0 2 rfl rfl
    (by show (List.replicate 1000 sampleW).length = 1000
        simp only [List.length_replicate])

/-! ## `_worker_loop` / `_process_sample`

The worker thread dequeues samples FIFO and runs every registered
callback on each sample in registration order inside
`try: callback(sample) except: print(...)` — a raising callback is
logged and never stops the remaining callbacks or later samples.  A
callback is modelled by an identifier plus a behaviour returning
`Except String Unit` (`error` = the callback raised). -/

structure StreamCallback where
  id : Nat
  run : StreamSample → Except String Unit

/-- `_process_sample`: every callback is invoked on the sample, in
order; an invocation that raises contributes its message to the error
log but does not interrupt the iteration. Returns the invocation log
(which callback saw which sample) and the caught errors. -/
def processSampleLog (cbs : List StreamCallback) (s : StreamSample) :
    List (Nat × StreamSample) × List String :=
  match cbs with
  | [] => ([], [])
  | c :: rest =>
      let tail := processSampleLog rest s
      match c.run s with
      | .ok _ => ((c.id, s) :: tail.1, tail.2)
      | .error e => ((c.id, s) :: tail.1, e :: tail.2)

/-- `_worker_loop` draining the queue front-to-back. -/
def workerDrain (cbs : List StreamCallback) :
    List StreamSample → List (Nat × StreamSample) × List String
  | [] => ([], [])
  | s :: rest =>
      let here := processSampleLog cbs s
      let tail := workerDrain cbs rest
      (here.1 ++ tail.1, here.2 ++ tail.2)

/-- The samples a given callback id was invoked on, in invocation order. -/
def observedBy (log : List (Nat × StreamSample)) (k : Nat) : List StreamSample :=
  (log.filter (fun e => e.1 == k)).map (·.2)

lemma processSampleLog_fst (cbs : List StreamCallback) (s : StreamSample) :
    (processSampleLog cbs s).1 = cbs.map (fun c => (c.id, s)) := by
  induction cbs with
  | nil => rfl
  | cons c rest ih =>
      rw [processSampleLog]
      cases c.run s <;> simp [ih]

lemma filter_map_pair_eq_nil (rest : List StreamCallback) (s : StreamSample)
    (k : Nat) (hk : k ∉ rest.map StreamCallback.id) :
    (rest.map (fun c => (c.id, s))).filter (fun e => e.1 == k) = [] := by
  rw [List.filter_eq_nil_iff]
  intro a ha
  rcases List.mem_map.mp ha with ⟨c, hc, rfl⟩
  simp only [beq_iff_eq]
  intro hid
  exact hk (List.mem_map.mpr ⟨c, hc, hid⟩)

lemma observedBy_single (cbs : List StreamCallback) (s : StreamSample) (k : Nat)
    (hnodup : (cbs.map StreamCallback.id).Nodup)
    (hk : k ∈ cbs.map StreamCallback.id) :
    observedBy (cbs.map (fun c => (c.id, s))) k = [s] := by
  induction cbs with
  | nil => simp at hk
  | cons c rest ih =>
      simp only [List.map_cons, List.nodup_cons] at hnodup hk
      rw [observedBy, List.map_cons, List.filter_cons]
      by_cases hek : c.id = k
      · subst hek
        simp only [beq_self_eq_true, if_pos]
        rw [filter_map_pair_eq_nil rest s c.id hnodup.1]
        rfl
      · have hkr : k ∈ rest.map StreamCallback.id := by
          rcases List.mem_cons.mp hk with h' | h'
          · exact absurd h'.symm hek
          · exact h'
        simp only [beq_iff_eq, hek, if_false]
        exact ih hnodup.2 hkr

lemma observedBy_drain (cbs : List StreamCallback) (samples : List StreamSample)
    (k : Nat) (hnodup : (cbs.map StreamCallback.id).Nodup)
    (hk : k ∈ cbs.map StreamCallback.id) :
    observedBy (workerDrain cbs samples).1 k = samples := by
  induction samples with
  | nil => rfl
  | cons s rest ih =>
      show observedBy ((processSampleLog cbs s).1 ++ (workerDrain cbs rest).1) k =
        s :: rest
      rw [observedBy, List.filter_append, List.map_append, processSampleLog_fst]
      have h1 := observedBy_single cbs s k hnodup hk
      rw [observedBy] at h1
      rw [observedBy] at ih
      rw [h1, ih]
      rfl

/-- Producer side below capacity: every `add_sample` call succeeds and
appends, and no sample is dropped. -/
lemma submitAll_below_capacity : ∀ (args : List AddArgs) (h : GRPCStreamHandler),
    h.is_running = true →
    h.data_queue.length + args.length ≤ h.max_queue_size →
    (submitAll h args).data_queue = h.data_queue ++ args.map sampleOfArgs ∧
    (submitAll h args).stats.dropped_samples = h.stats.dropped_samples := by
  intro args
  induction args with
  | nil => intro h _ _; simp [submitAll]
  | cons a rest ih =>
      intro h hrun hcap
      have hlt : h.data_queue.length < h.max_queue_size := by
        simp only [List.length_cons] at hcap
        omega
      have hstep : (add_sample h a.angles a.sequence a.session_id
          a.capture_time_ns a.send_time_ns a.now).1 =
          { h with data_queue := h.data_queue ++ [sampleOfArgs a],
                   stats := { h.stats with
                     total_samples := h.stats.total_samples + 1 } } := by
        simp [add_sample, hrun, Or.inr hlt, sampleOfArgs]
      have hrec := ih { h with data_queue := h.data_queue ++ [sampleOfArgs a],
                               stats := { h.stats with
                                 total_samples := h.stats.total_samples + 1 } }
        hrun (by simp only [List.length_append, List.length_cons,
                List.length_nil] at hcap ⊢; omega)
      rw [submitAll, hstep]
      refine ⟨?_, ?_⟩
      · rw [hrec.1]; simp
      · rw [hrec.2]

/-- C6: submitting `N` samples while the queue stays below capacity
enqueues them in submission order with no drop, and draining the queue
lets every registered callback (identified by its id, ids distinct)
observe exactly the enqueued samples in that order — for *every*
callback behaviour, including callbacks that raise on some samples,
since `_process_sample` catches callback exceptions and continues. -/
theorem stream_order_preservation (h : GRPCStreamHandler) (args : List AddArgs)
    (cbs : List StreamCallback) (k : Nat)
    (hrun : h.is_running = true)
    (hcap : h.data_queue.length + args.length ≤ h.max_queue_size)
    (hnodup : (cbs.map StreamCallback.id).Nodup)
    (hk : k ∈ cbs.map StreamCallback.id) :
    (submitAll h args).data_queue = h.data_queue ++ args.map sampleOfArgs ∧
    (submitAll h args).stats.dropped_samples = h.stats.dropped_samples ∧
    observedBy (workerDrain cbs (submitAll h args).data_queue).1 k =
      h.data_queue ++ args.map sampleOfArgs := by
  obtain ⟨hq, hd⟩ := submitAll_below_capacity args h hrun hcap
  refine ⟨hq, hd, ?_⟩
  rw [hq, observedBy_drain cbs _ k hnodup hk]

/-- Witness for `stream_order_preservation`: two samples submitted to
an empty running handler, two callbacks of which the second raises on
every sample; both callbacks still observe both samples in order. -/
theorem stream_order_preservation_witness :
    (submitAll ⟨1000, [], true, ⟨0, 0, 0, 0⟩⟩
        [⟨[1], 1, "a", 1, 1, 1⟩, ⟨[2], 2, "a", 1, 1, 2⟩]).data_queue =
      [] ++ [⟨[1], 1, "a", 1, 1, 1⟩, (⟨[2], 2, "a", 1, 1, 2⟩ : AddArgs)].map sampleOfArgs ∧
    (submitAll ⟨1000, [], true, ⟨0, 0, 0, 0⟩⟩
        [⟨[1], 1, "a", 1, 1, 1⟩, ⟨[2], 2, "a", 1, 1, 2⟩]).stats.dropped_samples = 0 ∧
    observedBy (workerDrain
        [⟨0, fun _ => Except.ok ()⟩, ⟨1, fun _ => Except.error "boom"⟩]
        (submitAll ⟨1000, [], true, ⟨0, 0, 0, 0⟩⟩
          [⟨[1], 1, "a", 1, 1, 1⟩, ⟨[2], 2, "a", 1, 1, 2⟩]).data_queue).1 1 =
      [] ++ [⟨[1], 1, "a", 1, 1, 1⟩, (⟨[2], 2, "a", 1, 1, 2⟩ : AddArgs)].map sampleOfArgs :=
  stream_order_preservation ⟨1000, [], true, ⟨0, 0, 0, 0⟩⟩
    [⟨[1], 1, "a", 1, 1, 1⟩, ⟨[2], 2, "a", 1, 1, 2⟩]
    [⟨0, fun _ => Except.ok ()⟩, ⟨1, fun _ => Except.error "boom"⟩] 1
    rfl (by simp) (by simp) (by simp)

/-! ## `BackgroundWorker` (`pages/wifi_ui_1.py`)

A single consumer thread drains `task_queue` FIFO; each task is run by
`_execute_task`, which dispatches on the task type to the matching
`client.*` call and wraps the outcome into one `TaskResult`; any
exception is caught and becomes `success=False, error=str(e)`.  The
RPC client functions are modelled as an oracle returning
`Except String String` (`error` = the call raised, carrying `str(e)`). -/

inductive TaskType
  | APPLY_GAINS | SEND_SAVE | SEND_CLEAR | SEND_HOMING
  | SEND_TELEOP | SEND_DELETE | SEND_POWER_OFF
deriving DecidableEq

/-- The `Enum` string values. -/
def TaskType.value : TaskType → String
  | .APPLY_GAINS => "apply_gains"
  | .SEND_SAVE => "send_save"
  | .SEND_CLEAR => "send_clear"
  | .SEND_HOMING => "send_homing"
  | .SEND_TELEOP => "send_teleop"
  | .SEND_DELETE => "send_delete"
  | .SEND_POWER_OFF => "send_power_off"

/-- The `params` dict keys actually read by `_execute_task`; an absent
key raises `KeyError` on subscript access and is a default on `.get`. -/
structure TaskParams where
  shoulder_gain : Option ℚ
  joint_gain : Option ℚ
  angles : Option (List ℚ)
  command : Option String
deriving DecidableEq

structure BackgroundTask where
  task_id : String
  task_type : TaskType
  params : TaskParams
  timestamp : ℚ
deriving DecidableEq

structure TaskResult where
  task_id : String
  success : Bool
  result : Option String
  error : String
  timestamp : ℚ
deriving DecidableEq

/-- Oracle for the `client` module: each RPC helper takes `(ip, port)`
and its command payload and either returns a message or raises. -/
structure RpcClient where
  send_gravity_comp_gain : String → Nat → ℚ → ℚ → Except String String
  send_save_command : String → Nat → String → List ℚ → Except String String
  send_delete_command : String → Nat → String → Except String String
  send_homing_command : String → Nat → String → Except String String
  send_master_teleop_command : String → Nat → String → Except String String
  send_power_off_command : String → Nat → String → Except String String

/-- `task.params[key]`: `KeyError` (whose `str` is the quoted key) when
the key is absent. -/
def getParam {α : Type} (x : Option α) (key : String) : Except String α :=
  match x with
  | some v => .ok v
  | none => .error ("\x27" ++ key ++ "\x27")

/-- The dispatch of `_execute_task` on `task.task_type` (the local
`grpc_data_manager` bookkeeping calls are no-ops on the data and are
not modelled). -/
def dispatch (cl : RpcClient) (ip : String) (port : Nat)
    (task : BackgroundTask) : Except String String :=
  match task.task_type with
  | .APPLY_GAINS => do
      let sg ← getParam task.params.shoulder_gain "shoulder_gain"
      let jg ← getParam task.params.joint_gain "joint_gain"
      cl.send_gravity_comp_gain ip port sg jg
  | .SEND_SAVE => cl.send_save_command ip port "SAVE" (task.params.angles.getD [])
  | .SEND_CLEAR => cl.send_delete_command ip port "CLEAR_POSES"
  | .SEND_HOMING => cl.send_homing_command ip port "GO_HOME"
  | .SEND_TELEOP => cl.send_master_teleop_command ip port
      (task.params.command.getD "START")
  | .SEND_DELETE => cl.send_delete_command ip port
      (task.params.command.getD "DELETE_ALL")
  | .SEND_POWER_OFF => cl.send_power_off_command ip port "POWER_OFF"

/-- `_execute_task`: missing client module short-circuits to a failure
result; otherwise the dispatched call's outcome is wrapped — success
into `success=True` with the returned message, a raise into
`success=False` with `error=str(e)`.  Total: no exception escapes. -/
def executeTask (avail : Bool) (cl : RpcClient) (ip : String) (port : Nat)
    (now : ℚ) (task : BackgroundTask) : TaskResult :=
  if avail = false then
    { task_id := task.task_id, success := false, result := none,
      error := "gRPC 클라이언트 모듈 없음", timestamp := now }
  else
    match dispatch cl ip port task with
    | .ok r => { task_id := task.task_id, success := true, result := some r,
                 error := "", timestamp := now }
    | .error e => { task_id := task.task_id, success := false, result := none,
                    error := e, timestamp := now }

/-- `_worker_loop`: tasks leave the queue FIFO, each producing exactly
one result enqueued to `result_queue`. -/
def workerLoopResults (avail : Bool) (cl : RpcClient) (ip : String)
    (port : Nat) (now : ℚ) (tasks : List BackgroundTask) : List TaskResult :=
  tasks.map (executeTask avail cl ip port now)

lemma executeTask_task_id (avail : Bool) (cl : RpcClient) (ip : String)
    (port : Nat) (now : ℚ) (task : BackgroundTask) :
    (executeTask avail cl ip port now task).task_id = task.task_id := by
  by_cases ha : avail = false
  · simp [executeTask, ha]
  · rcases hd : dispatch cl ip port task with e | r <;>
      simp [executeTask, ha, hd]

/-- C7: every dequeued task yields exactly one `TaskResult` carrying the
task's `task_id`; a successful dispatch yields `success=true` with the
returned message, a raising dispatch yields `success=false` with the
exception's message, and the exception never escapes (the result list
covers all tasks, in order). -/
theorem background_worker_results (avail : Bool) (cl : RpcClient) (ip : String)
    (port : Nat) (now : ℚ) (tasks : List BackgroundTask) (task : BackgroundTask) :
    workerLoopResults avail cl ip port now tasks =
        tasks.map (executeTask avail cl ip port now) ∧
    (workerLoopResults avail cl ip port now tasks).length = tasks.length ∧
    (executeTask avail cl ip port now task).task_id = task.task_id ∧
    (avail = true → ∀ r, dispatch cl ip port task = .ok r →
      executeTask avail cl ip port now task =
        ⟨task.task_id, true, some r, "", now⟩) ∧
    (avail = true → ∀ e, dispatch cl ip port task = .error e →
      executeTask avail cl ip port now task =
        ⟨task.task_id, false, none, e, now⟩) := by
  refine ⟨rfl, List.length_map _ _, executeTask_task_id _ _ _ _ _ _, ?_, ?_⟩
  · intro ha r hr
    simp [executeTask, ha, hr]
  · intro ha e he
    simp [executeTask, ha, he]

/-- A concrete client oracle whose homing RPC raises. -/
def clientW : RpcClient :=
  { send_gravity_comp_gain := fun _ _ _ _ => .ok "gain ok"
    send_save_command := fun _ _ _ _ => .ok "save ok"
    send_delete_command := fun _ _ _ => .ok "delete ok"
    send_homing_command := fun _ _ _ => .error "RPC down"
    send_master_teleop_command := fun _ _ _ => .ok "teleop ok"
    send_power_off_command := fun _ _ _ => .ok "off ok" }

/-- A concrete homing task. -/
def taskW : BackgroundTask :=
  ⟨"send_homing_17", .SEND_HOMING, ⟨none, none, none, none⟩, 17⟩

/-- Witness for `background_worker_results`: the failing homing RPC is
wrapped into a `success=false` result with the exception message. -/
theorem background_worker_results_witness :
    executeTask true clientW "192.168.0.43" 50051 18 taskW =
      ⟨"send_homing_17", false, none, "RPC down", 18⟩ :=
  (background_worker_results true clientW "192.168.0.43" 50051 18
    [taskW] taskW).2.2.2.2 rfl "RPC down" rfl

/-! ## `submit_task` task ids (`BackgroundWorker.submit_task`)

`task_id = f"{task_type.value}_{int(time.time() * 1000)}"` — the type's
string value, an underscore and the wall-clock time in truncated whole
milliseconds.  Nothing else enters the id. -/

def taskIdOf (tt : TaskType) (now : ℚ) : String :=
  tt.value ++ "_" ++ toString (pyInt (now * 1000))

/-- `submit_task` builds the task (the task queue is unbounded, so
`put_nowait` never raises here) and returns its id. -/
def submit_task (tt : TaskType) (params : TaskParams) (now : ℚ) :
    BackgroundTask :=
  { task_id := taskIdOf tt now, task_type := tt, params := params,
    timestamp := now }

/-- C10: `task_id` is a pure function of the task type's string value
and the wall-clock millisecond count, so two tasks of the same type
submitted within the same millisecond get identical ids, and their
`TaskResult`s carry identical `task_id`s. -/
theorem task_id_collision (tt : TaskType) (t1 t2 : ℚ) (p1 p2 : TaskParams)
    (h : pyInt (t1 * 1000) = pyInt (t2 * 1000)) :
    taskIdOf tt t1 = tt.value ++ "_" ++ toString (pyInt (t1 * 1000)) ∧
    taskIdOf tt t1 = taskIdOf tt t2 ∧
    (submit_task tt p1 t1).task_id = (submit_task tt p2 t2).task_id ∧
    ∀ (avail : Bool) (cl : RpcClient) (ip : String) (port : Nat) (now : ℚ),
      (executeTask avail cl ip port now (submit_task tt p1 t1)).task_id =
        (executeTask avail cl ip port now (submit_task tt p2 t2)).task_id := by
  refine ⟨rfl, ?_, ?_, ?_⟩
  · rw [taskIdOf, taskIdOf, h]
  · show taskIdOf tt t1 = taskIdOf tt t2
    rw [taskIdOf, taskIdOf, h]
  · intro avail cl ip port now
    rw [executeTask_task_id, executeTask_task_id]
    show taskIdOf tt t1 = taskIdOf tt t2
    rw [taskIdOf, taskIdOf, h]

/-- Witness for `task_id_collision`: `t1 = 0.5 s` and `t2 = 0.5005 s`
are distinct instants in the same millisecond, and an `apply_gains`
task submitted at either instant gets the same id. -/
theorem task_id_collision_witness :
    (1 / 2 : ℚ) ≠ 1001 / 2000 ∧
    (taskIdOf .APPLY_GAINS (1 / 2) =
        TaskType.value .APPLY_GAINS ++ "_" ++ toString (pyInt (1 / 2 * 1000)) ∧
      taskIdOf .APPLY_GAINS (1 / 2) = taskIdOf .APPLY_GAINS (1001 / 2000) ∧
      (submit_task .APPLY_GAINS ⟨none, none, none, none⟩ (1 / 2)).task_id =
        (submit_task .APPLY_GAINS ⟨some 1, some 1, none, none⟩
          (1001 / 2000)).task_id ∧
      ∀ (avail : Bool) (cl : RpcClient) (ip : String) (port : Nat) (now : ℚ),
        (executeTask avail cl ip port now
            (submit_task .APPLY_GAINS ⟨none, none, none, none⟩ (1 / 2))).task_id =
          (executeTask avail cl ip port now
            (submit_task .APPLY_GAINS ⟨some 1, some 1, none, none⟩
              (1001 / 2000))).task_id) :=
  ⟨by norm_num,
   task_id_collision .APPLY_GAINS (1 / 2) (1001 / 2000)
     ⟨none, none, none, none⟩ ⟨some 1, some 1, none, none⟩ (by norm_num [pyInt])⟩

/-! ## Gain clamping (`apply_gains_threaded` and
`client.send_gravity_comp_gain`)

The UI callback computes
`max(0.2, min(1.0, float(shoulder_gain or 0.6)))` (default `0.7` for
the joint gain) and submits the clamped values; the client helper
clamps its arguments again with `max(0.2, min(1.0, float(x)))` before
building the `GravityCompGainRequest`.  Python's `x or d` yields `d`
for a `None` **or zero** input. -/

/-- `max(0.2, min(1.0, x))`. -/
def clampGain (x : ℚ) : ℚ := max 0.2 (min 1.0 x)

/-- Python `x or d` on an optional float: `None` and `0.0` are falsy. -/
def pyOrQ (x : Option ℚ) (d : ℚ) : ℚ :=
  match x with
  | none => d
  | some v => if v = 0 then d else v

/-- The gain pair `apply_gains_threaded` submits as task params. -/
def applyGainsThreaded (shoulder_gain joint_gain : Option ℚ) : ℚ × ℚ :=
  (clampGain (pyOrQ shoulder_gain 0.6), clampGain (pyOrQ joint_gain 0.7))

/-- The field values of the `GravityCompGainRequest` built by
`client.send_gravity_comp_gain` from its two arguments. -/
def gravityCompGainRequest (shoulder_gain joint_gain : ℚ) : ℚ × ℚ :=
  (clampGain shoulder_gain, clampGain joint_gain)

/-- The gains actually dispatched over the RPC for one apply-gains
request: UI-side computation, then the client-side clamp. -/
def dispatchedGains (shoulder_gain joint_gain : Option ℚ) : ℚ × ℚ :=
  gravityCompGainRequest (applyGainsThreaded shoulder_gain joint_gain).1
    (applyGainsThreaded shoulder_gain joint_gain).2

lemma clampGain_mem (x : ℚ) : 0.2 ≤ clampGain x ∧ clampGain x ≤ 1 := by
  constructor
  · exact le_max_left _ _
  · exact max_le (by norm_num) (le_trans (min_le_left _ _) (by norm_num))

lemma clampGain_idem (x : ℚ) : clampGain (clampGain x) = clampGain x := by
  obtain ⟨h1, h2⟩ := clampGain_mem x
  rw [clampGain, min_eq_right (le_trans h2 (by norm_num)), max_eq_right h1]

/-- C8, counterexample: a shoulder gain of `0.0` is below `0.2`, yet the
dispatched shoulder gain is `0.6` (the falsy input is replaced by the
default before clamping), not the `0.2` the claim's clamping rule
demands. -/
theorem gain_clamp_counterexample :
    (0 : ℚ) < 0.2 ∧
      (dispatchedGains (some 0) (some 0.1)).1 = 0.6 ∧
      (0.6 : ℚ) ≠ 0.2 := by
  refine ⟨by norm_num, ?_, by norm_num⟩
  show clampGain (clampGain (pyOrQ (some 0) 0.6)) = 0.6
  rw [show pyOrQ (some 0) 0.6 = 0.6 from rfl, clampGain_idem]
  rw [clampGain, min_eq_right (by norm_num), max_eq_right (by norm_num)]

/-- C8 (amended): for non-null, nonzero gain inputs the dispatched
values are exactly the clamps into `[0.2, 1.0]` (above 1 becomes 1,
below 0.2 becomes 0.2); a null or zero input is first replaced by the
defaults 0.6/0.7; and whatever the inputs, the dispatched values lie in
`[0.2, 1.0]`. -/
theorem gain_clamp_amended (sg jg : Option ℚ) (vs vj : ℚ)
    (hs : sg = some vs) (hvs : vs ≠ 0) (hj : jg = some vj) (hvj : vj ≠ 0) :
    dispatchedGains sg jg = (clampGain vs, clampGain vj) ∧
    (1 < vs → (dispatchedGains sg jg).1 = 1) ∧
    (vs < 0.2 → (dispatchedGains sg jg).1 = 0.2) ∧
    (1 < vj → (dispatchedGains sg jg).2 = 1) ∧
    (vj < 0.2 → (dispatchedGains sg jg).2 = 0.2) ∧
    ∀ sg' jg' : Option ℚ,
      0.2 ≤ (dispatchedGains sg' jg').1 ∧ (dispatchedGains sg' jg').1 ≤ 1 ∧
        0.2 ≤ (dispatchedGains sg' jg').2 ∧ (dispatchedGains sg' jg').2 ≤ 1 := by
  subst hs; subst hj
  have hds : dispatchedGains (some vs) (some vj) = (clampGain vs, clampGain vj) := by
    show (clampGain (clampGain (pyOrQ (some vs) 0.6)),
          clampGain (clampGain (pyOrQ (some vj) 0.7))) = _
    rw [pyOrQ, if_neg hvs, pyOrQ, if_neg hvj, clampGain_idem, clampGain_idem]
  refine ⟨hds, ?_, ?_, ?_, ?_, ?_⟩
  · intro h1
    rw [hds]
    show clampGain vs = 1
    have hm : (1.0 : ℚ) ⊓ vs = 1.0 := min_eq_left (by norm_num; linarith)
    rw [clampGain, hm]
    norm_num
  · intro h02
    rw [hds]
    show clampGain vs = 0.2
    have hm : (1.0 : ℚ) ⊓ vs = vs := min_eq_right (by norm_num at h02 ⊢; linarith)
    rw [clampGain, hm, max_eq_left (le_of_lt h02)]
  · intro h1
    rw [hds]
    show clampGain vj = 1
    have hm : (1.0 : ℚ) ⊓ vj = 1.0 := min_eq_left (by norm_num; linarith)
    rw [clampGain, hm]
    norm_num
  · intro h02
    rw [hds]
    show clampGain vj = 0.2
    have hm : (1.0 : ℚ) ⊓ vj = vj := min_eq_right (by norm_num at h02 ⊢; linarith)
    rw [clampGain, hm, max_eq_left (le_of_lt h02)]
  · intro sg' jg'
    obtain ⟨a1, a2⟩ := clampGain_mem (applyGainsThreaded sg' jg').1
    obtain ⟨b1, b2⟩ := clampGain_mem (applyGainsThreaded sg' jg').2
    exact ⟨a1, a2, b1, b2⟩

/-- Witness for `gain_clamp_amended` at spec scenario D:
`shoulder=1.5, joint=0.1` dispatch as `1.0` and `0.2`. -/
theorem gain_clamp_amended_witness :
    dispatchedGains (some 1.5) (some 0.1) = (clampGain 1.5, clampGain 0.1) ∧
      (dispatchedGains (some 1.5) (some 0.1)).1 = 1 ∧
      (dispatchedGains (some 1.5) (some 0.1)).2 = 0.2 :=
  ⟨(gain_clamp_amended (some 1.5) (some 0.1) 1.5 0.1 rfl (by norm_num) rfl
      (by norm_num)).1,
   (gain_clamp_amended (some 1.5) (some 0.1) 1.5 0.1 rfl (by norm_num) rfl
      (by norm_num)).2.1 (by norm_num),
   (gain_clamp_amended (some 1.5) (some 0.1) 1.5 0.1 rfl (by norm_num) rfl
      (by norm_num)).2.2.2.2.1 (by norm_num)⟩

end MarsUI
